import Mathlib

/-!
Shallow embedding of the push-to-talk dictation orchestrator (src/main.js):
the recording state machine, the disengage debouncing, the binary framing
protocol for the recognition worker, the worker lifecycle, the float-to-int16
audio conversion, and the text injector.

Stateful code is modelled by explicit state passing on a `Machine` record.
Emitted side effects (bytes written to the worker's stdin, capture-control
messages to the recorder window, indicator requests) are accumulated in log
fields of the record; the `trace` field logs every actual state change made
by the `transition` function, so that temporal claims about transitions can
be stated.  Timers are modelled by storing the scheduled deadline: the
single-threaded event loop runs a due timer callback before any later-timed
event, which `fireIfDue` performs when the next sample is processed.
-/

namespace C3Flow

/-- Recording states, from the `STATE` object in src/main.js. -/
inductive STATE where
  | IDLE
  | RECORDING
  | STOPPING
  | FINALIZING
deriving DecidableEq, Fintype

/-- The `allowed` successor map inside `transition` (src/main.js lines 93-98). -/
def allowedMap : STATE → List STATE
  | .IDLE => [.RECORDING]
  | .RECORDING => [.STOPPING]
  | .STOPPING => [.FINALIZING]
  | .FINALIZING => [.IDLE]

/-- `transition(newState)` from src/main.js lines 91-101: a request equal to the
current state returns early; a request not in the `allowed` list of the current
state is ignored; otherwise the state is replaced. -/
def transition (currentState newState : STATE) : STATE :=
  if currentState = newState then currentState
  else if newState ∈ allowedMap currentState then newState
  else currentState

/-- Spec-side description of the strict cycle
Idle→Recording→Stopping→Finalizing→Idle, used to state claims about
`transition`. -/
def cycleNext : STATE → STATE
  | .IDLE => .RECORDING
  | .RECORDING => .STOPPING
  | .STOPPING => .FINALIZING
  | .FINALIZING => .IDLE

/-- `INPUT_SMOOTHING_MS` constant (src/main.js line 45). -/
def INPUT_SMOOTHING_MS : Nat := 30

/-- Fixed worker respawn delay used in the `close` handler (src/main.js line 221). -/
def RESPAWN_DELAY_MS : Nat := 2000

/-! ### Audio sample conversion (src/main.js `float32ToInt16`, lines 104-111)

Samples are modelled as rationals.  Every operation the source performs on a
sample that can actually occur there (Math.min/Math.max, comparison with 0,
multiplication of a float32 value by 32768 or 32767 in double precision, and
the truncation toward zero done by the byte stores of `writeInt16LE`) is exact
on IEEE doubles, so the rational model computes the same integers. -/

/-- `Math.max(-1, Math.min(1, floatArray[i]))` (src/main.js line 107). -/
def clip (x : ℚ) : ℚ := max (-1) (min 1 x)

/-- Truncation toward zero performed when `Buffer.writeInt16LE` stores a
non-integral (in-range) number. -/
def truncTowardZero (x : ℚ) : Int := if x < 0 then ⌈x⌉ else ⌊x⌋

/-- One sample of `float32ToInt16`: with `s` the clipped sample, the value
`s < 0 ? s * 0x8000 : s * 0x7FFF` (src/main.js lines 107-108), stored as a
16-bit integer. -/
def sampleToInt16 (x : ℚ) : Int :=
  truncTowardZero (if clip x < 0 then clip x * 32768 else clip x * 32767)

/-- Little-endian two's-complement byte pair written by `buf.writeInt16LE`. -/
def int16LE (v : Int) : List Nat :=
  let u := (v % 65536).toNat
  [u % 256, u / 256]

/-- `float32ToInt16(floatArray)` (src/main.js lines 104-111): the returned byte
buffer, two little-endian bytes per sample. -/
def float32ToInt16 (floatArray : List ℚ) : List Nat :=
  (floatArray.map (fun x => int16LE (sampleToInt16 x))).flatten

/-! ### Worker framing protocol (src/main.js lines 229-264) -/

/-- Bytes written by `header.writeUInt32LE(n, _)` for `n < 2^32`. -/
def u32le (n : Nat) : List Nat :=
  [n % 256, n / 256 % 256, n / 65536 % 256, n / 16777216 % 256]

/-- Little-endian decoding of a 4-byte list, used to state byte-exactness of
the AUDIO frame length field. -/
def decodeU32LE : List Nat → Nat
  | [b0, b1, b2, b3] => b0 + 256 * b1 + 65536 * b2 + 16777216 * b3
  | _ => 0

/-- The AUDIO frame bytes built by `sendAudioToWorker` (src/main.js lines
232-236): tag `0x02`, 4-byte little-endian length, then the payload. -/
def audioFrame (buffer : List Nat) : List Nat :=
  0x02 :: (u32le buffer.length ++ buffer)

/-! ### The orchestrator state -/

/-- Messages sent to the hidden recorder window (`start-capture` /
`stop-capture`, src/main.js lines 286 and 293). -/
inductive CaptureSig where
  | startCapture
  | stopCapture
deriving DecidableEq

/-- Indicator requests issued by `showIndicator` / `hideIndicator`
(src/main.js lines 353-388); the staged fade timers themselves are outside
the claims and only the request kind is logged. -/
inductive IndSig where
  | showListening
  | hideStaged
  | hideImmediate
deriving DecidableEq

/-- The module-level mutable state of src/main.js (lines 50-64) restricted to
what the orchestration logic reads and writes, together with logs of emitted
effects.  `workerAlive` stands for `asrProcess && asrProcess.stdin &&
!asrProcess.killed`; `recorderWindow` for the recorder window existing;
`workerWrites` accumulates the bytes written to the worker's stdin;
`audioSubmissions` logs each buffer handed to `sendAudioToWorker` (before its
liveness guard); `trace` logs each actual state change `(from, to)` performed
by `transition`. -/
structure Machine where
  currentState : STATE
  pcmBuffers : List Nat
  recordingStartTime : Option Nat
  stopTimer : Option Nat
  isPaused : Bool
  workerAlive : Bool
  recorderWindow : Bool
  lastReleaseTime : Nat
  workerWrites : List Nat
  audioSubmissions : List (List Nat)
  captureSignals : List CaptureSig
  indicatorLog : List IndSig
  trace : List (STATE × STATE)
deriving DecidableEq

/-- `transition` applied to the machine, logging the actual change. -/
def applyTransition (m : Machine) (newState : STATE) : Machine :=
  if transition m.currentState newState = m.currentState then m
  else { m with currentState := transition m.currentState newState,
                trace := m.trace ++ [(m.currentState, transition m.currentState newState)] }

/-- `signalStartToWorker()` (src/main.js lines 242-252): one byte `0x01` when a
live worker with an open stdin exists, otherwise nothing. -/
def signalStartToWorker (m : Machine) : Machine :=
  if m.workerAlive then { m with workerWrites := m.workerWrites ++ [0x01] } else m

/-- `signalEndToWorker()` (src/main.js lines 254-264): one byte `0x03` when a
live worker exists, otherwise nothing. -/
def signalEndToWorker (m : Machine) : Machine :=
  if m.workerAlive then { m with workerWrites := m.workerWrites ++ [0x03] } else m

/-- `sendAudioToWorker(buffer)` (src/main.js lines 229-240): every call is
logged as a submission; when a live worker exists the 5-byte header and the
payload are written to its stdin, otherwise the call returns without writing. -/
def sendAudioToWorker (m : Machine) (buffer : List Nat) : Machine :=
  let m0 := { m with audioSubmissions := m.audioSubmissions ++ [buffer] }
  if m0.workerAlive then
    { m0 with workerWrites := m0.workerWrites ++ audioFrame buffer }
  else m0

/-- `showIndicator()` request (src/main.js lines 353-364). -/
def showIndicator (m : Machine) : Machine :=
  { m with indicatorLog := m.indicatorLog ++ [IndSig.showListening] }

/-- `hideIndicator(immediate)` request (src/main.js lines 366-388). -/
def hideIndicator (m : Machine) (immediate : Bool) : Machine :=
  { m with indicatorLog :=
      m.indicatorLog ++ [if immediate then IndSig.hideImmediate else IndSig.hideStaged] }

/-- `recorderWindow.webContents.send(...)` guarded by the window existing
(src/main.js lines 286 and 293). -/
def sendToRecorder (m : Machine) (sig : CaptureSig) : Machine :=
  if m.recorderWindow then { m with captureSignals := m.captureSignals ++ [sig] } else m

/-- `startRecording()` (src/main.js lines 280-287). -/
def startRecording (m : Machine) (now : Nat) : Machine :=
  let m1 := { m with pcmBuffers := [], recordingStartTime := some now }
  let m2 := applyTransition m1 .RECORDING
  let m3 := showIndicator m2
  let m4 := signalStartToWorker m3
  sendToRecorder m4 .startCapture

/-- `resetToIdle()` (src/main.js lines 305-309). -/
def resetToIdle (m : Machine) : Machine :=
  applyTransition { m with pcmBuffers := [], recordingStartTime := none } .IDLE

/-- `finalizeRecording()` (src/main.js lines 298-303). -/
def finalizeRecording (m : Machine) : Machine :=
  resetToIdle (applyTransition m .FINALIZING)

/-- `stopRecording()` (src/main.js lines 289-296), entered at loop time `now`. -/
def stopRecording (m : Machine) (now : Nat) : Machine :=
  let m1 := { m with lastReleaseTime := now }
  let m2 := hideIndicator m1 false
  let m3 := applyTransition m2 .STOPPING
  let m4 := sendToRecorder m3 .stopCapture
  let m5 := signalEndToWorker m4
  finalizeRecording m5

/-- `checkInputState()` (src/main.js lines 267-278) for one polled sample;
`keysHeld` is `ctrlDown && winDown`, `now` the loop time of the poll tick. -/
def checkInputState (m : Machine) (keysHeld : Bool) (now : Nat) : Machine :=
  if m.isPaused then m
  else if keysHeld then
    let m1 := { m with stopTimer := none }
    if m1.currentState = .IDLE then startRecording m1 now else m1
  else if m.currentState = .RECORDING ∧ m.stopTimer = none then
    { m with stopTimer := some (now + INPUT_SMOOTHING_MS) }
  else m

/-- The stop-debounce timer callback (src/main.js line 275): run
`stopRecording()` then clear `stopTimer`.  A due timer callback is executed by
the event loop before any event scheduled at a later time, which the
sample-processing step performs here. -/
def fireIfDue (m : Machine) (now : Nat) : Machine :=
  match m.stopTimer with
  | some d => if d ≤ now then { stopRecording m now with stopTimer := none } else m
  | none => m

/-- One polled input sample: the conjunction of the two hotkey states at loop
time `t`. -/
structure Sample where
  t : Nat
  engaged : Bool
deriving DecidableEq

/-- Processing of one poll tick at time `s.t`: any stop-timer callback whose
deadline has passed runs first (same serialized event loop), then
`checkInputState`. -/
def processSample (m : Machine) (s : Sample) : Machine :=
  checkInputState (fireIfDue m s.t) s.engaged s.t

/-- Processing of a sequence of poll ticks. -/
def run (m : Machine) (ss : List Sample) : Machine :=
  ss.foldl processSample m

/-- The `ipcMain.on('audio-data')` handler (src/main.js lines 312-317). -/
def audioData (m : Machine) (data : List ℚ) : Machine :=
  if m.currentState = .RECORDING then sendAudioToWorker m (float32ToInt16 data) else m

/-- The `ipcMain.on('capture-error')` handler (src/main.js lines 318-320). -/
def captureError (m : Machine) : Machine :=
  if m.currentState ≠ .IDLE then resetToIdle m else m

/-! ### Text injector (src/main.js `injectText`, lines 134-146) -/

/-- Observable state touched by `injectText`: the pause flag it reads, the
system clipboard, a count of blur (focus-removal) actions, a count of
`SendInput` synthetic-paste calls, the indicator visibility, and whether the
platform is win32 (the `SendInput` guard). -/
structure Injector where
  isPaused : Bool
  clipboard : Option String
  blurCount : Nat
  sendInputCount : Nat
  indicatorVisible : Bool
  platformWin32 : Bool
deriving DecidableEq

/-- JavaScript `String.prototype.trim`: remove leading and trailing
whitespace.  Implemented over the character list so that it evaluates inside
the kernel. -/
def jsTrim (s : String) : String :=
  String.mk (((s.data.dropWhile Char.isWhitespace).reverse.dropWhile
    Char.isWhitespace).reverse)

/-- `injectText(text)` (src/main.js lines 134-146).  `!text` is true exactly
for the empty string and `!text.trim()` exactly for whitespace-only text;
otherwise the indicator is force-hidden, the trimmed text is placed on the
clipboard, focused windows of this app are blurred, and on win32 the paste
input sequence is sent. -/
def injectText (inj : Injector) (text : String) : Injector :=
  if inj.isPaused then inj
  else if text = "" ∨ jsTrim text = "" then inj
  else
    let i1 := { inj with indicatorVisible := false }
    let i2 := { i1 with clipboard := some (jsTrim text) }
    let i3 := { i2 with blurCount := i2.blurCount + 1 }
    if i3.platformWin32 then { i3 with sendInputCount := i3.sendInputCount + 1 } else i3

/-! ### Worker lifecycle (src/main.js `startASRWorker`, lines 175-227) -/

/-- Lifecycle state of the recognition worker: whether a live handle exists,
the delay of the currently scheduled respawn (if one is pending), and a log of
every respawn delay ever scheduled. -/
structure WorkerLife where
  asrProcessLive : Bool
  pendingRespawnDelay : Option Nat
  respawnDelays : List Nat
deriving DecidableEq

/-- The `close` handler of a successfully started worker (src/main.js lines
218-222): discard the handle and schedule exactly one respawn after the fixed
2000 ms delay. -/
def onWorkerClose (w : WorkerLife) : WorkerLife :=
  { asrProcessLive := false,
    pendingRespawnDelay := some RESPAWN_DELAY_MS,
    respawnDelays := w.respawnDelays ++ [RESPAWN_DELAY_MS] }

/-- The scheduled respawn firing: `startASRWorker()` runs again; when a Python
interpreter resolves the spawn succeeds and a live handle exists, otherwise
the worker subsystem stays disabled (src/main.js lines 175-190). -/
def workerRespawnFire (pythonFound : Bool) (w : WorkerLife) : WorkerLife :=
  if pythonFound then { w with asrProcessLive := true, pendingRespawnDelay := none }
  else { w with asrProcessLive := false, pendingRespawnDelay := none }

/-- One crash-and-respawn round: the worker exits, then the scheduled respawn
fires and succeeds. -/
def crashCycle (w : WorkerLife) : WorkerLife :=
  workerRespawnFire true (onWorkerClose w)

/-- `n` successive crash-and-respawn rounds. -/
def crashes : Nat → WorkerLife → WorkerLife
  | 0, w => w
  | n + 1, w => crashes n (crashCycle w)

/-! ### Conditions on sample sequences, for the debounce claims -/

/-- The poll times of a sample sequence are strictly increasing. -/
def timesIncreasing : List Sample → Bool
  | [] => true
  | [_] => true
  | a :: b :: rest => (decide (a.t < b.t)) && timesIncreasing (b :: rest)

/-- Every disengaged sample is followed, later in the sequence, by an engaged
sample strictly inside its smoothing window (30 ms): the re-engage is
processed by the serialized event loop before the debounce timer armed by the
disengage can fire. -/
def reengagedWithinB : List Sample → Bool
  | [] => true
  | s :: rest =>
      (s.engaged || rest.any (fun r => r.engaged && decide (r.t < s.t + INPUT_SMOOTHING_MS))) &&
      reengagedWithinB rest

/-! ### Concrete states used by witnesses and counterexamples -/

/-- A baseline machine: idle, unpaused, live worker, recorder window present. -/
def mBase : Machine :=
  { currentState := .IDLE
    pcmBuffers := []
    recordingStartTime := none
    stopTimer := none
    isPaused := false
    workerAlive := true
    recorderWindow := true
    lastReleaseTime := 0
    workerWrites := []
    audioSubmissions := []
    captureSignals := []
    indicatorLog := []
    trace := [] }

/-- A machine in the middle of a recording. -/
def mRec : Machine :=
  { mBase with currentState := .RECORDING, pcmBuffers := [7], recordingStartTime := some 5 }

/-- A recording machine that was paused after its stop-debounce timer was
armed with deadline 30. -/
def mRecPausedTimer : Machine :=
  { mRec with isPaused := true, stopTimer := some 30 }

/-- A machine in the `FINALIZING` bookkeeping state. -/
def mFin : Machine :=
  { mBase with currentState := .FINALIZING, recordingStartTime := some 5 }

/-- A paused but otherwise idle machine. -/
def mPausedIdle : Machine :=
  { mBase with isPaused := true }

/-- Pre-existing clipboard content. -/
def beforeText : String := "before"

/-- An unpaused injector with content on the clipboard and a visible
indicator. -/
def injReady : Injector :=
  { isPaused := false
    clipboard := some beforeText
    blurCount := 0
    sendInputCount := 0
    indicatorVisible := true
    platformWin32 := true }

/-- A whitespace-only text. -/
def wsOnly : String := "   "

/-- A worker-lifecycle state with a live worker and no respawn ever
scheduled. -/
def wLive : WorkerLife :=
  { asrProcessLive := true, pendingRespawnDelay := none, respawnDelays := [] }

/-- A concrete audio chunk containing a full-scale positive and a full-scale
negative sample. -/
def qChunk : List ℚ := [1, -1]

/-- A disengaged sample at time 100 followed by a re-engaged sample at time
110, well inside the 30 ms smoothing window. -/
def c3Samples : List Sample := [⟨100, false⟩, ⟨110, true⟩]

/-! ## Helper lemmas -/

/-- `transition` either keeps the current state or adopts the requested one. -/
theorem transition_eq_or (s t : STATE) : transition s t = s ∨ transition s t = t := by
  revert s t; decide

/-- An entry added to the trace by `applyTransition m tgt` has target `tgt`. -/
theorem mem_applyTransition_trace (m : Machine) (tgt : STATE) (p : STATE × STATE)
    (hp : p ∈ (applyTransition m tgt).trace) : p ∈ m.trace ∨ p.2 = tgt := by
  unfold applyTransition at hp
  split at hp
  · exact Or.inl hp
  · rename_i h
    simp only [List.mem_append, List.mem_singleton] at hp
    rcases hp with h1 | h1
    · exact Or.inl h1
    · right
      rcases transition_eq_or m.currentState tgt with he | he
      · exact absurd he h
      · rw [h1]
        exact he

@[simp] theorem applyTransition_isPaused (m : Machine) (t : STATE) :
    (applyTransition m t).isPaused = m.isPaused := by
  unfold applyTransition; split <;> rfl

@[simp] theorem applyTransition_stopTimer (m : Machine) (t : STATE) :
    (applyTransition m t).stopTimer = m.stopTimer := by
  unfold applyTransition; split <;> rfl

@[simp] theorem signalStartToWorker_isPaused (m : Machine) :
    (signalStartToWorker m).isPaused = m.isPaused := by
  unfold signalStartToWorker; split <;> rfl

@[simp] theorem signalStartToWorker_stopTimer (m : Machine) :
    (signalStartToWorker m).stopTimer = m.stopTimer := by
  unfold signalStartToWorker; split <;> rfl

@[simp] theorem signalStartToWorker_currentState (m : Machine) :
    (signalStartToWorker m).currentState = m.currentState := by
  unfold signalStartToWorker; split <;> rfl

@[simp] theorem signalStartToWorker_trace (m : Machine) :
    (signalStartToWorker m).trace = m.trace := by
  unfold signalStartToWorker; split <;> rfl

@[simp] theorem signalEndToWorker_isPaused (m : Machine) :
    (signalEndToWorker m).isPaused = m.isPaused := by
  unfold signalEndToWorker; split <;> rfl

@[simp] theorem signalEndToWorker_stopTimer (m : Machine) :
    (signalEndToWorker m).stopTimer = m.stopTimer := by
  unfold signalEndToWorker; split <;> rfl

@[simp] theorem signalEndToWorker_currentState (m : Machine) :
    (signalEndToWorker m).currentState = m.currentState := by
  unfold signalEndToWorker; split <;> rfl

@[simp] theorem signalEndToWorker_trace (m : Machine) :
    (signalEndToWorker m).trace = m.trace := by
  unfold signalEndToWorker; split <;> rfl

@[simp] theorem sendToRecorder_isPaused (m : Machine) (s : CaptureSig) :
    (sendToRecorder m s).isPaused = m.isPaused := by
  unfold sendToRecorder; split <;> rfl

@[simp] theorem sendToRecorder_stopTimer (m : Machine) (s : CaptureSig) :
    (sendToRecorder m s).stopTimer = m.stopTimer := by
  unfold sendToRecorder; split <;> rfl

@[simp] theorem sendToRecorder_currentState (m : Machine) (s : CaptureSig) :
    (sendToRecorder m s).currentState = m.currentState := by
  unfold sendToRecorder; split <;> rfl

@[simp] theorem sendToRecorder_trace (m : Machine) (s : CaptureSig) :
    (sendToRecorder m s).trace = m.trace := by
  unfold sendToRecorder; split <;> rfl

/-! ## Claim C2 -/

/-- Claim C2: `transition` realizes the strict cycle
Idle→Recording→Stopping→Finalizing→Idle.  A request equal to the current
state's single allowed successor moves to it; any other request leaves the
state unchanged (a no-op, not an error).  Consequently every sequence of
transition requests only ever moves the state along the strict cycle. -/
theorem transition_strict_cycle (s t : STATE) :
    transition s t = if t = cycleNext s then cycleNext s else s := by
  revert s t; decide

/-! ## Claim C7 -/

/-- After any number of additional crash-and-respawn rounds that start with a
respawn round, the worker handle is live again. -/
theorem crashes_after_cycle_live (n : Nat) : ∀ w : WorkerLife,
    (crashes n (crashCycle w)).asrProcessLive = true := by
  induction n with
  | zero =>
      intro w
      simp [crashes, crashCycle, workerRespawnFire, onWorkerClose]
  | succ k ih =>
      intro w
      rw [crashes]
      exact ih (crashCycle w)

/-- Claim C7: every exit of a successfully started worker schedules exactly
one respawn attempt after the fixed 2000 ms delay (the `close` handler
discards the handle, schedules a single respawn, and logs it), and `n`
repeated crash-and-respawn rounds schedule exactly `n` respawns, all with the
same fixed delay — no backoff growth and no permanent give-up (after every
round the worker is live again). -/
theorem worker_exit_fixed_respawn (w : WorkerLife) (n : Nat) :
    (onWorkerClose w).asrProcessLive = false ∧
    (onWorkerClose w).pendingRespawnDelay = some 2000 ∧
    (onWorkerClose w).respawnDelays = w.respawnDelays ++ [2000] ∧
    (crashes n w).respawnDelays = w.respawnDelays ++ List.replicate n 2000 ∧
    (n ≠ 0 → (crashes n w).asrProcessLive = true) := by
  refine ⟨rfl, rfl, rfl, ?_, ?_⟩
  · induction n generalizing w with
    | zero => simp [crashes]
    | succ k ih =>
        rw [crashes, ih]
        simp [crashCycle, workerRespawnFire, onWorkerClose, RESPAWN_DELAY_MS,
          List.replicate_succ]
  · intro hn
    cases n with
    | zero => exact absurd rfl hn
    | succ k =>
        rw [crashes]
        exact crashes_after_cycle_live k w

/-- Witness for claim C7: three crashes from a live worker log three scheduled
respawns of 2000 ms each and leave the worker live. -/
theorem worker_exit_fixed_respawn_witness :
    (crashes 3 wLive).respawnDelays = [2000, 2000, 2000] ∧
    (crashes 3 wLive).asrProcessLive = true := by
  have h := worker_exit_fixed_respawn wLive 3
  exact ⟨by rw [h.2.2.2.1]; rfl, h.2.2.2.2 (by decide)⟩

/-! ## Claim C9 -/

/-- Claim C9: `injectText` is a no-op — clipboard, focus, indicator and
synthetic input all unchanged — whenever the system is paused, or the text is
empty, or the text is whitespace-only (empty text trims to the empty string,
so both text guards are covered by `text.trim = ""`). -/
theorem injectText_noop (inj : Injector) (text : String)
    (h : inj.isPaused = true ∨ jsTrim text = "") :
    injectText inj text = inj := by
  rcases h with h | h
  · simp [injectText, h]
  · cases hp : inj.isPaused <;> simp [injectText, hp, h]

/-- Witness for claim C9: whitespace-only injection on an unpaused injector
with prior clipboard content changes nothing. -/
theorem injectText_noop_witness :
    injectText injReady wsOnly = injReady ∧ injReady.isPaused = false :=
  ⟨injectText_noop injReady wsOnly (Or.inr (by decide)), by decide⟩

/-! ## Claim C1 -/

/-- Counterexample to claim C1 as stated: a capture-error received while the
state is `RECORDING` does not make the state `IDLE` — `resetToIdle` requests
`transition(IDLE)`, which the strict-cycle rule ignores outside
`FINALIZING`, so the state stays `RECORDING`. -/
theorem captureError_counterexample :
    mRec.currentState = STATE.RECORDING ∧
    (captureError mRec).currentState = STATE.RECORDING := by
  constructor <;> rfl

/-- Claim C1 (amended): a capture-error notification received in any state
other than Idle immediately clears the audio accumulation window and the
start timestamp and requests a transition to Idle; because transition
requests outside the strict cycle are no-ops, the state actually becomes
Idle only when it was Finalizing and otherwise remains unchanged. -/
theorem captureError_clears (m : Machine) (h : m.currentState ≠ STATE.IDLE) :
    (captureError m).pcmBuffers = [] ∧
    (captureError m).recordingStartTime = none ∧
    (captureError m).currentState =
      (if m.currentState = STATE.FINALIZING then STATE.IDLE else m.currentState) ∧
    (captureError m).stopTimer = m.stopTimer ∧
    (captureError m).workerWrites = m.workerWrites := by
  obtain ⟨c, pb, rs, st, ip, wa, rwin, lt, ww, au, cg, il, tr⟩ := m
  cases c <;>
    simp_all [captureError, resetToIdle, applyTransition, transition, allowedMap]

/-- Witness for claim C1 (amended): a capture-error in `FINALIZING` clears the
buffers and does reach `IDLE` there. -/
theorem captureError_clears_witness :
    mFin.currentState ≠ STATE.IDLE ∧
    (captureError mFin).pcmBuffers = [] ∧
    (captureError mFin).currentState = STATE.IDLE := by
  refine ⟨by decide, (captureError_clears mFin (by decide)).1, ?_⟩
  have h := (captureError_clears mFin (by decide)).2.2.1
  simpa using h

/-! ## Claim C4 -/

/-- Claim C4: every frame written to the worker's stdin is byte-exact per the
protocol.  With a live worker, START writes exactly the single byte `0x01`,
END exactly the single byte `0x03`, and an AUDIO frame for a payload of fewer
than 2^32 bytes writes exactly the byte `0x02`, then four bytes that are a
little-endian unsigned encoding of the payload length, then exactly the
payload bytes. -/
theorem worker_frames_byte_exact (m : Machine) (p : List Nat)
    (halive : m.workerAlive = true) (hlen : p.length < 4294967296) :
    (signalStartToWorker m).workerWrites = m.workerWrites ++ [0x01] ∧
    (signalEndToWorker m).workerWrites = m.workerWrites ++ [0x03] ∧
    (sendAudioToWorker m p).workerWrites = m.workerWrites ++ audioFrame p ∧
    (audioFrame p).take 1 = [0x02] ∧
    (audioFrame p).length = 5 + p.length ∧
    ((audioFrame p).drop 1).take 4 = u32le p.length ∧
    decodeU32LE (u32le p.length) = p.length ∧
    (∀ b ∈ u32le p.length, b < 256) ∧
    (audioFrame p).drop 5 = p := by
  refine ⟨?_, ?_, ?_, ?_, ?_, ?_, ?_, ?_, ?_⟩
  · simp [signalStartToWorker, halive]
  · simp [signalEndToWorker, halive]
  · simp [sendAudioToWorker, halive]
  · rfl
  · simp [audioFrame, u32le]
    omega
  · simp [audioFrame, u32le]
  · simp only [decodeU32LE, u32le]
    omega
  · intro b hb
    simp only [u32le, List.mem_cons, List.not_mem_nil, or_false] at hb
    rcases hb with h | h | h | h <;> subst h <;> omega
  · simp [audioFrame, u32le]

/-- Witness for claim C4: the AUDIO frame for the two-byte payload `[7, 8]`
written while recording with a live worker. -/
theorem worker_frames_byte_exact_witness :
    (sendAudioToWorker mRec [7, 8]).workerWrites = audioFrame [7, 8] ∧
    audioFrame [7, 8] = [2, 2, 0, 0, 0, 7, 8] := by
  have h := worker_frames_byte_exact mRec [7, 8] rfl (by decide)
  refine ⟨?_, by decide⟩
  rw [h.2.2.1]
  rfl

/-! ## Claim C5 -/

/-- clip keeps in-range values unchanged. -/
theorem clip_of_mem (x : ℚ) (h1 : -1 ≤ x) (h2 : x ≤ 1) : clip x = x := by
  unfold clip
  rw [min_eq_right h2, max_eq_right h1]

/-- clip saturates at the upper bound. -/
theorem clip_of_one_le (x : ℚ) (h : 1 ≤ x) : clip x = 1 := by
  unfold clip
  rw [min_eq_left h]
  exact max_eq_right (by norm_num)

/-- clip saturates at the lower bound. -/
theorem clip_of_le_negOne (x : ℚ) (h : x ≤ -1) : clip x = -1 := by
  unfold clip
  have hx : min 1 x = x := min_eq_right (le_trans h (by norm_num))
  rw [hx]
  exact max_eq_left h

/-- clip never exceeds the range. -/
theorem clip_mem (x : ℚ) : -1 ≤ clip x ∧ clip x ≤ 1 := by
  constructor
  · exact le_max_left _ _
  · exact max_le (by norm_num) (min_le_left _ _)

/-- Claim C5: the float-to-int16 sample conversion first clips each input to
[-1, 1] (converting any input exactly as it converts its clipped value), then
scales negative samples by 32768 and non-negative samples by 32767; in
particular 1.0 yields 32767, -1.0 yields -32768, and the out-of-range input
1.5 is clipped before conversion, converting as 1.0 does. -/
theorem float32ToInt16_conversion :
    sampleToInt16 1 = 32767 ∧
    sampleToInt16 (-1) = -32768 ∧
    sampleToInt16 (3 / 2) = sampleToInt16 1 ∧
    (∀ x : ℚ, sampleToInt16 x = sampleToInt16 (max (-1) (min 1 x))) ∧
    (∀ x : ℚ, 1 ≤ x → sampleToInt16 x = 32767) ∧
    (∀ x : ℚ, x ≤ -1 → sampleToInt16 x = -32768) ∧
    (∀ x : ℚ, -1 ≤ x → x < 0 → sampleToInt16 x = truncTowardZero (x * 32768)) ∧
    (∀ x : ℚ, 0 ≤ x → x ≤ 1 → sampleToInt16 x = truncTowardZero (x * 32767)) := by
  have hone : ∀ x : ℚ, 1 ≤ x → sampleToInt16 x = 32767 := by
    intro x h
    unfold sampleToInt16
    rw [clip_of_one_le x h]
    norm_num [truncTowardZero]
  have hneg : ∀ x : ℚ, x ≤ -1 → sampleToInt16 x = -32768 := by
    intro x h
    unfold sampleToInt16
    rw [clip_of_le_negOne x h]
    norm_num [truncTowardZero]
    rw [show ((-32768 : ℚ)) = ((-32768 : Int) : ℚ) by norm_num, Int.ceil_intCast]
  refine ⟨hone 1 le_rfl, hneg (-1) le_rfl, ?_, ?_, hone, hneg, ?_, ?_⟩
  · rw [hone (3 / 2) (by norm_num), hone 1 le_rfl]
  · intro x
    unfold sampleToInt16
    have h : clip (max (-1) (min 1 x)) = clip x :=
      clip_of_mem (clip x) (clip_mem x).1 (clip_mem x).2
    rw [h]
  · intro x h1 h2
    unfold sampleToInt16
    rw [clip_of_mem x h1 (le_trans h2.le (by norm_num)), if_pos h2]
  · intro x h1 h2
    unfold sampleToInt16
    rw [clip_of_mem x (le_trans (by norm_num) h1) h2, if_neg (not_lt.mpr h1)]

/-- Witness for claim C5: out-of-range samples 2 and -3 are clipped and
convert to the extreme 16-bit values. -/
theorem float32ToInt16_conversion_witness :
    sampleToInt16 2 = 32767 ∧ sampleToInt16 (-3) = -32768 := by
  have h := float32ToInt16_conversion
  exact ⟨h.2.2.2.2.1 2 (by norm_num), h.2.2.2.2.2.1 (-3) (by norm_num)⟩

/-! ## Claim C6 -/

/-- Claim C6: an incoming audio chunk is converted and handed to the worker
channel as an AUDIO frame if and only if the recording state is `RECORDING`
when it arrives: in `RECORDING` exactly one submission carrying the converted
payload is made — and, when a live worker exists, exactly that AUDIO frame's
bytes are written to its stdin — while in any other state the handler leaves
the machine unchanged, forwarding zero frames. -/
theorem audioData_iff_recording (m : Machine) (data : List ℚ) :
    (m.currentState = STATE.RECORDING →
      (audioData m data).audioSubmissions
          = m.audioSubmissions ++ [float32ToInt16 data] ∧
      (m.workerAlive = true →
        (audioData m data).workerWrites
            = m.workerWrites ++ audioFrame (float32ToInt16 data))) ∧
    (m.currentState ≠ STATE.RECORDING → audioData m data = m) := by
  constructor
  · intro hs
    constructor
    · cases ha : m.workerAlive <;> simp [audioData, hs, sendAudioToWorker, ha]
    · intro ha
      simp [audioData, hs, sendAudioToWorker, ha]
  · intro hs
    simp [audioData, hs]

/-- Witness for claim C6: the chunk `qChunk` is forwarded while `RECORDING`
and dropped while `IDLE`. -/
theorem audioData_iff_recording_witness :
    (audioData mRec qChunk).audioSubmissions = [float32ToInt16 qChunk] ∧
    (audioData mBase qChunk).audioSubmissions = [] := by
  have h1 := (audioData_iff_recording mRec qChunk).1 rfl
  have h2 := (audioData_iff_recording mBase qChunk).2 (by decide)
  constructor
  · rw [h1.1]
    rfl
  · rw [h2]
    rfl

/-! ## More helper lemmas, for the temporal claims -/

@[simp] theorem showIndicator_isPaused (m : Machine) :
    (showIndicator m).isPaused = m.isPaused := rfl

@[simp] theorem showIndicator_currentState (m : Machine) :
    (showIndicator m).currentState = m.currentState := rfl

@[simp] theorem showIndicator_stopTimer (m : Machine) :
    (showIndicator m).stopTimer = m.stopTimer := rfl

@[simp] theorem showIndicator_trace (m : Machine) :
    (showIndicator m).trace = m.trace := rfl

@[simp] theorem hideIndicator_isPaused (m : Machine) (b : Bool) :
    (hideIndicator m b).isPaused = m.isPaused := rfl

@[simp] theorem hideIndicator_currentState (m : Machine) (b : Bool) :
    (hideIndicator m b).currentState = m.currentState := rfl

@[simp] theorem hideIndicator_stopTimer (m : Machine) (b : Bool) :
    (hideIndicator m b).stopTimer = m.stopTimer := rfl

@[simp] theorem hideIndicator_trace (m : Machine) (b : Bool) :
    (hideIndicator m b).trace = m.trace := rfl

@[simp] theorem startRecording_isPaused (m : Machine) (now : Nat) :
    (startRecording m now).isPaused = m.isPaused := by
  unfold startRecording
  simp

@[simp] theorem stopRecording_isPaused (m : Machine) (now : Nat) :
    (stopRecording m now).isPaused = m.isPaused := by
  unfold stopRecording finalizeRecording resetToIdle
  simp

@[simp] theorem fireIfDue_isPaused (m : Machine) (t : Nat) :
    (fireIfDue m t).isPaused = m.isPaused := by
  unfold fireIfDue
  cases h : m.stopTimer with
  | none => simp
  | some d =>
      by_cases hd : d ≤ t <;> simp [hd]

@[simp] theorem checkInputState_isPaused (m : Machine) (k : Bool) (t : Nat) :
    (checkInputState m k t).isPaused = m.isPaused := by
  unfold checkInputState
  split
  · rfl
  · split
    · simp [apply_ite Machine.isPaused]
    · split <;> rfl

@[simp] theorem processSample_isPaused (m : Machine) (s : Sample) :
    (processSample m s).isPaused = m.isPaused := by
  unfold processSample
  simp

/-- Processing a sample list one step at a time. -/
theorem run_cons (m : Machine) (s : Sample) (ss : List Sample) :
    run m (s :: ss) = run (processSample m s) ss := rfl

/-- Trace entries added by `resetToIdle` target `IDLE`. -/
theorem mem_resetToIdle_trace (m : Machine) (p : STATE × STATE)
    (hp : p ∈ (resetToIdle m).trace) : p ∈ m.trace ∨ p.2 = STATE.IDLE := by
  unfold resetToIdle at hp
  rcases mem_applyTransition_trace _ _ _ hp with h | h
  · exact Or.inl h
  · exact Or.inr h

/-- Trace entries added by `finalizeRecording` target `FINALIZING` or
`IDLE`. -/
theorem mem_finalizeRecording_trace (m : Machine) (p : STATE × STATE)
    (hp : p ∈ (finalizeRecording m).trace) :
    p ∈ m.trace ∨ p.2 = STATE.FINALIZING ∨ p.2 = STATE.IDLE := by
  unfold finalizeRecording at hp
  rcases mem_resetToIdle_trace _ _ hp with h | h
  · rcases mem_applyTransition_trace _ _ _ h with h2 | h2
    · exact Or.inl h2
    · exact Or.inr (Or.inl h2)
  · exact Or.inr (Or.inr h)

/-- No trace entry added by `stopRecording` targets `RECORDING`. -/
theorem mem_stopRecording_trace (m : Machine) (now : Nat) (p : STATE × STATE)
    (hp : p ∈ (stopRecording m now).trace) : p ∈ m.trace ∨ p.2 ≠ STATE.RECORDING := by
  unfold stopRecording at hp
  rcases mem_finalizeRecording_trace _ _ hp with h | h | h
  · rw [signalEndToWorker_trace, sendToRecorder_trace] at h
    rcases mem_applyTransition_trace _ _ _ h with h2 | h2
    · exact Or.inl h2
    · right
      rw [h2]
      decide
  · right
    rw [h]
    decide
  · right
    rw [h]
    decide

/-- No trace entry added by the stop-timer callback targets `RECORDING`. -/
theorem mem_fireIfDue_trace (m : Machine) (t : Nat) (p : STATE × STATE)
    (hp : p ∈ (fireIfDue m t).trace) : p ∈ m.trace ∨ p.2 ≠ STATE.RECORDING := by
  unfold fireIfDue at hp
  cases h : m.stopTimer with
  | none =>
      rw [h] at hp
      exact Or.inl hp
  | some d =>
      rw [h] at hp
      by_cases hd : d ≤ t
      · have hp2 : p ∈ (stopRecording m t).trace := by
          simpa [hd] using hp
        exact mem_stopRecording_trace m t p hp2
      · have hp2 : p ∈ m.trace := by
          simpa [hd] using hp
        exact Or.inl hp2

/-- While paused, processing a sample runs only the pending timer callback. -/
theorem processSample_paused (m : Machine) (s : Sample) (hp : m.isPaused = true) :
    processSample m s = fireIfDue m s.t := by
  unfold processSample checkInputState
  simp [hp]

/-- While paused, no trace entry added over a whole sample sequence targets
`RECORDING`. -/
theorem run_paused_trace (ss : List Sample) : ∀ m : Machine, m.isPaused = true →
    ∀ p ∈ (run m ss).trace, p ∈ m.trace ∨ p.2 ≠ STATE.RECORDING := by
  induction ss with
  | nil =>
      intro m _ p hmem
      exact Or.inl hmem
  | cons s rest ih =>
      intro m hp p hmem
      rw [run_cons] at hmem
      have hp2 : (processSample m s).isPaused = true := by
        rw [processSample_isPaused]
        exact hp
      rcases ih (processSample m s) hp2 p hmem with h | h
      · rw [processSample_paused m s hp] at h
        exact mem_fireIfDue_trace m s.t p h
      · exact Or.inr h

/-! ## Claim C8 -/

/-- Claim C8: while the paused flag is true the input-sample handler performs
no state change at all (it returns the machine unchanged for every sample),
and over any sequence of polled samples processed while paused, no transition
into `RECORDING` is ever recorded — every trace entry present afterwards was
already there or targets a state other than `RECORDING`. -/
theorem paused_no_transition_to_recording (m : Machine) (ss : List Sample)
    (hp : m.isPaused = true) :
    (∀ (k : Bool) (t : Nat), checkInputState m k t = m) ∧
    (∀ p ∈ (run m ss).trace, p ∈ m.trace ∨ p.2 ≠ STATE.RECORDING) := by
  constructor
  · intro k t
    simp [checkInputState, hp]
  · exact run_paused_trace ss m hp

/-- Witness for claim C8: a paused recording machine with a pending stop timer
ignores a both-keys-held sample. -/
theorem paused_no_transition_to_recording_witness :
    checkInputState mRecPausedTimer true 5 = mRecPausedTimer :=
  (paused_no_transition_to_recording mRecPausedTimer [] rfl).1 true 5

/-! ## Claim C3 -/

/-- Strictly increasing times are inherited by the tail. -/
theorem timesIncreasing_tail (a : Sample) (rest : List Sample)
    (h : timesIncreasing (a :: rest) = true) : timesIncreasing rest = true := by
  cases rest with
  | nil => rfl
  | cons b r =>
      simp only [timesIncreasing, Bool.and_eq_true] at h
      exact h.2

/-- With strictly increasing times, the head is earlier than every later
sample. -/
theorem timesIncreasing_head_lt (rest : List Sample) : ∀ a : Sample,
    timesIncreasing (a :: rest) = true → ∀ w ∈ rest, a.t < w.t := by
  induction rest with
  | nil =>
      intro a _ w hw
      exact absurd hw (List.not_mem_nil w)
  | cons b r ih =>
      intro a h w hw
      simp only [timesIncreasing, Bool.and_eq_true, decide_eq_true_eq] at h
      rcases List.mem_cons.mp hw with hb | hr
      · rw [hb]
        exact h.1
      · exact lt_trans h.1 (ih b h.2 w hr)

/-- The re-engage condition is inherited by the tail. -/
theorem reengagedWithinB_tail (s : Sample) (rest : List Sample)
    (h : reengagedWithinB (s :: rest) = true) : reengagedWithinB rest = true := by
  simp only [reengagedWithinB, Bool.and_eq_true] at h
  exact h.2

/-- A disengaged head is followed by an engaged sample inside its smoothing
window. -/
theorem reengagedWithinB_head (s : Sample) (rest : List Sample)
    (h : reengagedWithinB (s :: rest) = true) (hs : s.engaged = false) :
    ∃ w ∈ rest, w.engaged = true ∧ w.t < s.t + INPUT_SMOOTHING_MS := by
  simp only [reengagedWithinB, Bool.and_eq_true, Bool.or_eq_true, hs,
    Bool.false_eq_true, false_or, List.any_eq_true, decide_eq_true_eq] at h
  obtain ⟨w, hw, he, ht⟩ := h.1
  exact ⟨w, hw, he, ht⟩

/-- A cleared stop timer stays untouched by the timer machinery. -/
theorem fireIfDue_none (m : Machine) (t : Nat) (h : m.stopTimer = none) :
    fireIfDue m t = m := by
  unfold fireIfDue
  rw [h]

/-- A pending stop timer whose deadline has not been reached does not fire. -/
theorem fireIfDue_notDue (m : Machine) (t d : Nat) (h : m.stopTimer = some d)
    (hd : ¬d ≤ t) : fireIfDue m t = m := by
  unfold fireIfDue
  rw [h]
  simp [hd]

/-- An engaged sample while recording cancels any pending stop timer and
changes nothing else. -/
theorem checkInputState_recording_engaged (m : Machine) (t : Nat)
    (hs : m.currentState = STATE.RECORDING) (hp : m.isPaused = false) :
    checkInputState m true t = { m with stopTimer := none } := by
  unfold checkInputState
  simp [hp, hs]

/-- A disengaged sample while recording with no pending timer arms the
debounce timer for the smoothing window. -/
theorem checkInputState_recording_disengaged_none (m : Machine) (t : Nat)
    (hs : m.currentState = STATE.RECORDING) (hp : m.isPaused = false)
    (hst : m.stopTimer = none) :
    checkInputState m false t = { m with stopTimer := some (t + INPUT_SMOOTHING_MS) } := by
  unfold checkInputState
  simp [hp, hs, hst]

/-- A disengaged sample while a timer is already pending changes nothing. -/
theorem checkInputState_recording_disengaged_some (m : Machine) (t d : Nat)
    (hs : m.currentState = STATE.RECORDING) (hp : m.isPaused = false)
    (hst : m.stopTimer = some d) :
    checkInputState m false t = m := by
  unfold checkInputState
  simp [hp, hs, hst]

/-- Invariant pass for claim C3: while recording and unpaused, along samples
with strictly increasing times in which every disengage is re-engaged inside
its window — and any pending timer has such a rescuing re-engage ahead of its
deadline — the machine stays in `RECORDING`, ends with no pending timer, and
records no transition at all. -/
theorem run_reengaged_aux (ss : List Sample) : ∀ m : Machine,
    m.currentState = STATE.RECORDING → m.isPaused = false →
    (∀ d, m.stopTimer = some d → ∃ w ∈ ss, w.engaged = true ∧ w.t < d) →
    timesIncreasing ss = true → reengagedWithinB ss = true →
    (run m ss).currentState = STATE.RECORDING ∧ (run m ss).stopTimer = none ∧
    (run m ss).trace = m.trace := by
  induction ss with
  | nil =>
      intro m hs _ htimer _ _
      refine ⟨hs, ?_, rfl⟩
      cases hst : m.stopTimer with
      | none => exact hst
      | some d =>
          obtain ⟨w, hw, _⟩ := htimer d hst
          exact absurd hw (List.not_mem_nil w)
  | cons s rest ih =>
      intro m hs hp htimer hinc hre
      have hfire : fireIfDue m s.t = m := by
        cases hst : m.stopTimer with
        | none => exact fireIfDue_none m s.t hst
        | some d =>
            obtain ⟨w, hw, hwe, hwt⟩ := htimer d hst
            have hlt : s.t < d := by
              rcases List.mem_cons.mp hw with hws | hwr
              · rw [← hws]
                exact hwt
              · exact lt_trans (timesIncreasing_head_lt rest s hinc w hwr) hwt
            exact fireIfDue_notDue m s.t d hst (not_le.mpr hlt)
      have hrest_inc := timesIncreasing_tail s rest hinc
      have hrest_re := reengagedWithinB_tail s rest hre
      rw [run_cons]
      unfold processSample
      rw [hfire]
      cases he : s.engaged with
      | true =>
          rw [checkInputState_recording_engaged m s.t hs hp]
          have h1 := ih { m with stopTimer := none } hs hp
            (by intro d hd; simp at hd) hrest_inc hrest_re
          exact ⟨h1.1, h1.2.1, h1.2.2⟩
      | false =>
          cases hst : m.stopTimer with
          | none =>
              rw [checkInputState_recording_disengaged_none m s.t hs hp hst]
              obtain ⟨w, hw, hwe, hwt⟩ := reengagedWithinB_head s rest hre he
              have h1 := ih { m with stopTimer := some (s.t + INPUT_SMOOTHING_MS) } hs hp
                (by
                  intro d2 hd2
                  have hd3 : s.t + INPUT_SMOOTHING_MS = d2 := by simpa using hd2
                  exact ⟨w, hw, hwe, hd3 ▸ hwt⟩)
                hrest_inc hrest_re
              exact ⟨h1.1, h1.2.1, h1.2.2⟩
          | some d =>
              rw [checkInputState_recording_disengaged_some m s.t d hs hp hst]
              refine ih m hs hp ?_ hrest_inc hrest_re
              intro d2 hd2
              obtain ⟨w, hw, hwe, hwt⟩ := htimer d2 hd2
              rcases List.mem_cons.mp hw with hws | hwr
              · rw [hws, he] at hwe
                exact absurd hwe (by simp)
              · exact ⟨w, hwr, hwe, hwt⟩

/-- Claim C3: for every sequence of polled samples with strictly increasing
times in which every disengaged sample is re-engaged strictly inside the
30 ms smoothing window, a recording, unpaused machine with no pending timer
never transitions to `STOPPING` (indeed records no transition at all: the
trace is unchanged), remains in `RECORDING`, and ends with the pending stop
timer cancelled. -/
theorem reengage_within_window_no_stop (m : Machine) (ss : List Sample)
    (hs : m.currentState = STATE.RECORDING) (hp : m.isPaused = false)
    (hst : m.stopTimer = none)
    (hinc : timesIncreasing ss = true) (hre : reengagedWithinB ss = true) :
    (run m ss).currentState = STATE.RECORDING ∧
    (run m ss).stopTimer = none ∧
    (run m ss).trace = m.trace := by
  refine run_reengaged_aux ss m hs hp ?_ hinc hre
  intro d hd
  rw [hst] at hd
  exact absurd hd (by simp)

/-- Witness for claim C3: a disengage at 100 re-engaged at 110 leaves the
machine recording, with no pending timer and no transition recorded. -/
theorem reengage_within_window_no_stop_witness :
    (run mRec c3Samples).currentState = STATE.RECORDING ∧
    (run mRec c3Samples).stopTimer = none ∧
    (run mRec c3Samples).trace = mRec.trace :=
  reengage_within_window_no_stop mRec c3Samples rfl rfl rfl (by decide) (by decide)

/-! ## Claim C10 -/

/-- `stopRecording` from `RECORDING` with a live worker and a recorder window:
the full stop sequence runs — staged indicator hide, transitions through
`STOPPING` and `FINALIZING` to `IDLE`, the stop-capture signal, the END
frame, and the cleared accumulation window and start timestamp. -/
theorem stopRecording_recording (m : Machine) (now : Nat)
    (hs : m.currentState = STATE.RECORDING) (hw : m.workerAlive = true)
    (hr : m.recorderWindow = true) :
    stopRecording m now =
      { m with
        currentState := STATE.IDLE
        pcmBuffers := []
        recordingStartTime := none
        lastReleaseTime := now
        workerWrites := m.workerWrites ++ [0x03]
        captureSignals := m.captureSignals ++ [CaptureSig.stopCapture]
        indicatorLog := m.indicatorLog ++ [IndSig.hideStaged]
        trace := m.trace ++ [(STATE.RECORDING, STATE.STOPPING),
          (STATE.STOPPING, STATE.FINALIZING), (STATE.FINALIZING, STATE.IDLE)] } := by
  obtain ⟨c, pb, rs, st, ip, wa, rwin, lt, ww, au, cg, il, tr⟩ := m
  have hs2 : c = STATE.RECORDING := hs
  have hw2 : wa = true := hw
  have hr2 : rwin = true := hr
  subst hs2 hw2 hr2
  simp [stopRecording, hideIndicator, applyTransition, transition, allowedMap,
    sendToRecorder, signalEndToWorker, finalizeRecording, resetToIdle]

/-- While paused with a pending timer, samples strictly before the deadline —
including both-keys-held samples — change nothing at all. -/
theorem run_paused_before_deadline (ss : List Sample) : ∀ (m : Machine) (d : Nat),
    m.isPaused = true → m.stopTimer = some d → (∀ s ∈ ss, s.t < d) →
    run m ss = m := by
  induction ss with
  | nil => intro m d _ _ _; rfl
  | cons s rest ih =>
      intro m d hp hst hlt
      rw [run_cons, processSample_paused _ _ hp,
        fireIfDue_notDue m s.t d hst (not_le.mpr (hlt s (List.mem_cons_self s rest)))]
      exact ih m d hp hst (fun w hw => hlt w (List.mem_cons_of_mem s hw))

/-- Claim C10: if the paused flag is set while a stop-debounce timer is
pending in `RECORDING`, then any samples processed while paused and before
the deadline — even with both hotkey keys pressed again — change nothing
(paused samples are ignored and cannot cancel the timer), and the paused
sample at or after the deadline runs the timer callback, executing the full
stop sequence: transitions through `STOPPING` and `FINALIZING` to `IDLE`, the
stop-capture signal, and the END frame, leaving no pending timer. -/
theorem paused_pending_timer_fires (m : Machine) (d t : Nat) (ss : List Sample)
    (e : Bool) (hp : m.isPaused = true) (hs : m.currentState = STATE.RECORDING)
    (hst : m.stopTimer = some d) (hw : m.workerAlive = true)
    (hr : m.recorderWindow = true) (hss : ∀ s ∈ ss, s.t < d) (hd : d ≤ t) :
    run m ss = m ∧
    (processSample (run m ss) ⟨t, e⟩).currentState = STATE.IDLE ∧
    (processSample (run m ss) ⟨t, e⟩).stopTimer = none ∧
    (processSample (run m ss) ⟨t, e⟩).workerWrites = m.workerWrites ++ [0x03] ∧
    (processSample (run m ss) ⟨t, e⟩).captureSignals
        = m.captureSignals ++ [CaptureSig.stopCapture] ∧
    (processSample (run m ss) ⟨t, e⟩).trace
        = m.trace ++ [(STATE.RECORDING, STATE.STOPPING),
            (STATE.STOPPING, STATE.FINALIZING), (STATE.FINALIZING, STATE.IDLE)] := by
  have hrun : run m ss = m := run_paused_before_deadline ss m d hp hst hss
  have hf : fireIfDue m t = { stopRecording m t with stopTimer := none } := by
    unfold fireIfDue
    rw [hst]
    simp [hd]
  have hstep : processSample m ⟨t, e⟩ = { stopRecording m t with stopTimer := none } := by
    rw [processSample_paused m ⟨t, e⟩ hp]
    exact hf
  rw [hrun, hstep, stopRecording_recording m t hs hw hr]
  refine ⟨rfl, ?_, ?_, ?_, ?_, ?_⟩ <;> rfl

/-- Witness for claim C10: paused with deadline 30, a both-keys-held sample at
10 changes nothing and the sample at 30 finds the utterance fully stopped. -/
theorem paused_pending_timer_fires_witness :
    run mRecPausedTimer [⟨10, true⟩] = mRecPausedTimer ∧
    (processSample (run mRecPausedTimer [⟨10, true⟩]) ⟨30, false⟩).currentState
        = STATE.IDLE ∧
    (processSample (run mRecPausedTimer [⟨10, true⟩]) ⟨30, false⟩).workerWrites
        = mRecPausedTimer.workerWrites ++ [0x03] := by
  have h := paused_pending_timer_fires mRecPausedTimer 30 30 [⟨10, true⟩] false
    rfl rfl rfl rfl rfl (by decide) (by decide)
  exact ⟨h.1, h.2.1, h.2.2.2.1⟩

end C3Flow
